import Mathlib

/-!
Verification of the interledger-relay connector core: a shallow embedding of
the routing engine (table construction, longest-prefix resolution, partition
walk, health/failover state machine), the router service's error mapping, the
expiry service, the outbound HTTP client's retry/decode logic, the ILDCP
config service and the echo service, with theorems checking the
natural-language specification against the code.

Conventions of the embedding:
- byte strings are `List Nat`;
- instants and durations are `Nat` (seconds);
- the `f64` partition weights and fail ratios are embedded as `ℚ`;
- fallible code returns `Option`/`Except`.
-/

/-- Byte strings (`Bytes`/`&[u8]` in the source). -/
abbrev ByteStr := List Nat

/-- ASCII bytes of a string literal. -/
def asciiBytes (s : String) : ByteStr := s.toList.map Char.toNat

/-- Modelled from the spec: `error.rs` of the packet crate is absent from
`src/`. The ILP error taxonomy's 3-character codes used by the relay (§7). -/
inductive ErrorCode where
  | F00_BAD_REQUEST
  | F01_INVALID_PACKET
  | F02_UNREACHABLE
  | R00_TRANSFER_TIMED_OUT
  | R02_INSUFFICIENT_TIMEOUT
  | T00_INTERNAL_ERROR
  | T01_PEER_UNREACHABLE
  | T03_CONNECTOR_BUSY
  deriving DecidableEq, Repr

/-- Modelled from the spec: `packet.rs` is absent from `src/`. A `Prepare`
packet's attributes (§3): amount, expires_at (an instant), a 32-byte
execution condition, an ILP destination address, and opaque data. -/
structure Prepare where
  amount : Nat
  expiresAt : Nat
  executionCondition : ByteStr
  destination : ByteStr
  data : ByteStr
  deriving DecidableEq, Repr

/-- Modelled from the spec: `packet.rs` is absent from `src/`. A `Fulfill`
packet: a 32-byte fulfillment and opaque data (§3). -/
structure Fulfill where
  fulfillment : ByteStr
  data : ByteStr
  deriving DecidableEq, Repr

/-- Modelled from the spec: `packet.rs` is absent from `src/`. A `Reject`
packet: an error code, a message, an optional `triggered_by` ILP address and
opaque data (§3). -/
structure Reject where
  code : ErrorCode
  message : String
  triggeredBy : Option ByteStr
  data : ByteStr
  deriving DecidableEq, Repr

/-- Modelled from the spec: `address.rs` is absent from `src/`. A byte is
allowed inside an ILP address segment when it lies in `[A-Za-z0-9_-]`
(mirrors `validate_address_segment` in `static_route.rs`, which is the same
character class). -/
def segmentByte (b : Nat) : Bool :=
  b = 45 || b = 95
    || (65 ≤ b && b ≤ 90)
    || (97 ≤ b && b ≤ 122)
    || (48 ≤ b && b ≤ 57)

/-- A non-empty run of address-segment bytes (`validate_address_segment` in
`static_route.rs`). -/
def validateAddressSegment (segment : ByteStr) : Bool :=
  !segment.isEmpty && segment.all segmentByte

/-- Split a byte string at `.` (byte 46) separators. -/
def splitSegments (b : ByteStr) : List ByteStr :=
  b.splitOn 46

/-- Modelled from the spec: `address.rs` is absent from `src/`. "ILP
addresses are dot-separated ASCII segments over `[A-Za-z0-9_-]`; total
length 1–1023 bytes; each segment non-empty." (§3) -/
def validAddress (b : ByteStr) : Bool :=
  1 ≤ b.length && b.length ≤ 1023
    && (splitSegments b).all validateAddressSegment

/-- Modelled from the spec: `address.rs` is absent from `src/`.
`Addr::try_from` validates a byte string as an ILP address. -/
def addrTryFrom (b : ByteStr) : Option ByteStr :=
  if validAddress b then some b else none

example : validAddress (asciiBytes "test.relay.child") = true := by decide
example : validAddress (asciiBytes "test..x") = false := by decide
example : validAddress [] = false := by decide
example : validAddress (asciiBytes "peer.config") = true := by decide

/-! ## Ordering of target prefixes (`serde.rs` of the router)

The route-map deserializer sorts prefixes from longest to shortest, breaking
ties by byte order ascending. -/

/-- Byte-wise lexicographic comparison (ascending), mirroring `prefix_1.cmp(prefix_2)`
on byte strings of equal length. -/
def lexLe : ByteStr → ByteStr → Bool
  | [], _ => true
  | _ :: _, [] => false
  | a :: as, b :: bs => if a < b then true else if b < a then false else lexLe as bs

theorem lexLe_total : ∀ a b : ByteStr, lexLe a b = true ∨ lexLe b a = true := by
  intro a
  induction a with
  | nil => intro b; left; rfl
  | cons x xs ih =>
    intro b
    cases b with
    | nil => right; rfl
    | cons y ys =>
      by_cases hxy : x < y
      · left; simp [lexLe, hxy]
      · by_cases hyx : y < x
        · right; simp [lexLe, hyx, hxy]
        · have hx : ¬ x < y := hxy
          rcases ih ys with h | h
          · left; simp [lexLe, hx, hyx, h]
          · right; simp [lexLe, hx, hyx, h]

theorem lexLe_trans :
    ∀ a b c : ByteStr, lexLe a b = true → lexLe b c = true → lexLe a c = true := by
  intro a
  induction a with
  | nil => intro b c _ _; rfl
  | cons x xs ih =>
    intro b c hab hbc
    cases b with
    | nil => simp [lexLe] at hab
    | cons y ys =>
      cases c with
      | nil => simp [lexLe] at hbc
      | cons z zs =>
        simp only [lexLe] at hab hbc ⊢
        by_cases hxy : x < y
        · -- x < y and lexLe (y::ys) (z::zs): either y < z or y = z, so x < z
          by_cases hyz : y < z
          · simp [show x < z from lt_trans hxy hyz]
          · by_cases hzy : z < y
            · simp [hyz, hzy] at hbc
            · have : y = z := le_antisymm (le_of_not_lt hzy) (le_of_not_lt hyz)
              simp [this ▸ hxy]
        · by_cases hyx : y < x
          · simp [hxy, hyx] at hab
          · have hxey : x = y := le_antisymm (le_of_not_lt hyx) (le_of_not_lt hxy)
            subst hxey
            by_cases hxz : x < z
            · simp [hxz]
            · by_cases hzx : z < x
              · simp [hxz, hzx] at hbc
              · simp only [hxy, hyx, if_neg, ite_self] at hab
                simp only [hxz, hzx, if_neg, ite_self] at hbc
                simp [hxz, hzx, ih ys zs (by simpa using hab) (by simpa using hbc)]

/-- The prefix ordering used by the deserializer in `serde.rs`: longest
first, ties broken by prefix bytes ascending. -/
def prefOrd (a b : ByteStr) : Prop :=
  b.length < a.length ∨ (a.length = b.length ∧ lexLe a b = true)

instance : DecidableRel prefOrd := fun a b => by
  unfold prefOrd; infer_instance

instance : IsTotal ByteStr prefOrd where
  total a b := by
    rcases Nat.lt_trichotomy a.length b.length with h | h | h
    · right; left; exact h
    · rcases lexLe_total a b with hl | hl
      · left; right; exact ⟨h, hl⟩
      · right; right; exact ⟨h.symm, hl⟩
    · left; left; exact h

instance : IsTrans ByteStr prefOrd where
  trans a b c hab hbc := by
    rcases hab with h1 | ⟨h1, l1⟩ <;> rcases hbc with h2 | ⟨h2, l2⟩
    · exact Or.inl (lt_trans h2 h1)
    · exact Or.inl (h2 ▸ h1)
    · exact Or.inl (h1 ▸ h2)
    · exact Or.inr ⟨h1.trans h2, lexLe_trans a b c l1 l2⟩

theorem prefOrd_length_le {a b : ByteStr} (h : prefOrd a b) : b.length ≤ a.length := by
  rcases h with h | ⟨h, _⟩
  · exact le_of_lt h
  · exact le_of_eq h.symm

/-! ## Routing data model (`static_route.rs`, `dynamic_route.rs`) -/

/-- Per-route failover configuration (`RouteFailover` in `static_route.rs`).
The `f64` fail ratio is embedded as `ℚ`; `fail_duration` is in seconds. -/
structure RouteFailover where
  windowSize : Nat
  failRatio : ℚ
  failDuration : Nat
  deriving DecidableEq, Repr

/-- `NextHop` in `static_route.rs`: a fixed endpoint, or a URI derived from
an endpoint pre/suffix pair around a destination segment. -/
inductive NextHop where
  | bilateral (endpoint : String) (auth : Option String)
  | multilateral (endpointPre endpointSuf : ByteStr) (auth : Option String)
  deriving DecidableEq, Repr

/-- `StaticRoute` in `static_route.rs`. The `f64` partition weight is
embedded as `ℚ`. -/
structure StaticRoute where
  targetPrefix : ByteStr
  nextHop : NextHop
  account : String
  failover : Option RouteFailover
  partition : ℚ
  deriving DecidableEq, Repr

/-- `RouteStatus` in `dynamic_route.rs`. -/
inductive RouteStatus where
  | infallible
  | healthy (remaining failures updatedAt : Nat)
  | unhealthy (untilTime : Nat)
  deriving DecidableEq, Repr

/-- `DynamicRoute` in `dynamic_route.rs`: a static route plus its health. -/
structure DynamicRoute where
  config : StaticRoute
  status : RouteStatus
  deriving DecidableEq, Repr

/-- `DynamicRoute::new`: status starts `Infallible` without a failover
config, otherwise `Healthy` with a full window (`now` stands for
`Instant::now()`). -/
def DynamicRoute.new (now : Nat) (config : StaticRoute) : DynamicRoute :=
  { config
    status :=
      match config.failover with
      | none => .infallible
      | some failover => .healthy failover.windowSize 0 now }

/-- `MAX_WINDOW_DURATION` in `dynamic_route.rs`: 5 minutes, in seconds. -/
def MAX_WINDOW_DURATION : Nat := 5 * 60

/-- `DynamicRoute::is_available` in `dynamic_route.rs`, as a function of the
status and the current instant. -/
def is_available (now : Nat) : RouteStatus → Bool
  | .infallible => true
  | .healthy _ _ _ => true
  | .unhealthy untilTime => decide (untilTime < now)

/-- `DynamicRoute::update_with_now` in `dynamic_route.rs`, as a function of
the route's failover config (the code unwraps `config.failover` in the
`Healthy`/`Unhealthy` branches). `remaining - 1` and `now - updated_at` are
truncated `Nat` subtractions. -/
def update_with_now (failover : RouteFailover) (isSuccess : Bool) (now : Nat) :
    RouteStatus → RouteStatus
  | .infallible => .infallible
  | .healthy remaining failures updatedAt =>
    let fails : Nat := if isSuccess then 0 else 1
    let remaining1 := if MAX_WINDOW_DURATION < now - updatedAt then failover.windowSize else remaining
    let failures1 := if MAX_WINDOW_DURATION < now - updatedAt then 0 else failures
    let remaining2 := remaining1 - 1
    let failures2 := failures1 + fails
    let ratio : ℚ := (failures2 : ℚ) / (failover.windowSize : ℚ)
    if failover.failRatio ≤ ratio then
      .unhealthy (now + failover.failDuration)
    else if remaining2 = 0 then
      .healthy failover.windowSize 0 now
    else
      .healthy remaining2 failures2 now
  | .unhealthy untilTime =>
    if now < untilTime then .unhealthy untilTime
    else
      let fails : Nat := if isSuccess then 0 else 1
      .healthy (failover.windowSize - fails) fails now

/-- The statuses a route with the given failover config can reach: the
initial `Healthy` state of `DynamicRoute::new`, closed under
`update_with_now` at arbitrary instants and outcomes. -/
inductive ReachableStatus (failover : RouteFailover) : RouteStatus → Prop
  | init (t0 : Nat) : ReachableStatus failover (.healthy failover.windowSize 0 t0)
  | step {s : RouteStatus} (isSuccess : Bool) (now : Nat) :
      ReachableStatus failover s →
      ReachableStatus failover (update_with_now failover isSuccess now s)

/-! ## Routing table (`table.rs`) -/

/-- `RoutingPartition` in `partition.rs`: which bytes of the Prepare are
hashed to place a request in `[0, 1]`. -/
inductive RoutingPartition where
  | destination
  | executionCondition
  deriving DecidableEq, Repr

/-- `RouteGroup` in `table.rs`: a set of routes sharing a target prefix. -/
structure RouteGroup where
  targetPrefix : ByteStr
  routes : List DynamicRoute
  deriving DecidableEq, Repr

/-- `RoutingTable` in `table.rs`. -/
structure RoutingTable where
  partitionBy : RoutingPartition
  groups : List RouteGroup
  deriving DecidableEq, Repr

/-- `RoutingError` in `table.rs`. -/
inductive RoutingError where
  | NoRoute
  | NoHealthyRoute
  deriving DecidableEq, Repr

/-- One step of the grouping loop in `RoutingTable::new`: push the route onto
the first group with the same target prefix, or append a new group. -/
def insertRoute (groups : List RouteGroup) (route : DynamicRoute) : List RouteGroup :=
  match groups with
  | [] => [⟨route.config.targetPrefix, [route]⟩]
  | g :: gs =>
    if g.targetPrefix = route.config.targetPrefix then
      { g with routes := g.routes ++ [route] } :: gs
    else
      g :: insertRoute gs route

/-- `RoutingTable::new` in `table.rs`: group the configured routes by target
prefix, in order of first occurrence (`now` stands for the `Instant::now()`
used by `DynamicRoute::new`). -/
def RoutingTable.new (now : Nat) (routes : List StaticRoute)
    (partitionBy : RoutingPartition) : RoutingTable :=
  ⟨partitionBy, routes.foldl (fun gs r => insertRoute gs (DynamicRoute.new now r)) []⟩

/-- `RoutingTable::resolve_group` in `table.rs`: the first group (with its
index) whose target prefix is a prefix of the destination. -/
def RoutingTable.resolveGroup (t : RoutingTable) (destination : ByteStr) :
    Option (Nat × RouteGroup) :=
  t.groups.enum.find? (fun g => g.2.targetPrefix.isPrefixOf destination)

/-- The selection loop of `RoutingTable::resolve`: walk the available routes
in group order; take a route when the position falls within its fraction of
the total partitions, falling back to the last available route. -/
def walkRoutes : List (Nat × DynamicRoute) → ℚ → ℚ → Option (Nat × DynamicRoute)
  | [], _, _ => none
  | (i, route) :: rest, totalPartitions, position =>
    let fraction := route.config.partition / totalPartitions
    if position ≤ fraction ∨ rest = [] then some (i, route)
    else walkRoutes rest totalPartitions (position - fraction)

/-- `RoutingTable::resolve` in `table.rs`. `hashPosition` stands for
`self.partition_by.find(prepare)`, the stable-hash position in `[0, 1]` (the
64-bit hash itself is not modelled; resolution is proved for every
position). It is only consulted when the group holds more than one route. -/
def RoutingTable.resolve (t : RoutingTable) (now : Nat) (prepare : Prepare)
    (hashPosition : ℚ) : Except RoutingError (Nat × Nat × DynamicRoute) :=
  match t.resolveGroup prepare.destination with
  | none => .error .NoRoute
  | some (groupIndex, group) =>
    let availableRoutes := group.routes.enum.filter (fun r => is_available now r.2.status)
    let totalPartitions : ℚ := (availableRoutes.map (fun r => r.2.config.partition)).sum
    let position : ℚ := if 1 < group.routes.length then hashPosition else 0
    match walkRoutes availableRoutes totalPartitions position with
    | some (routeIndex, route) => .ok (groupIndex, routeIndex, route)
    | none => .error .NoHealthyRoute

/-! ## Route-map deserialization (`serde.rs` of the router)

The JSON config maps each target prefix to a list of route descriptions.
`RoutingTableData::deserialize` sorts the prefixes longest-to-shortest (ties
by byte order ascending) and flattens the map in that order. The map is
embedded as an association list with pairwise-distinct keys; the key order
of the list is arbitrary, mirroring `HashMap` iteration. -/

/-- `RouteData` in `serde.rs`: one route description under a prefix. -/
structure RouteData where
  nextHop : NextHop
  account : String
  failover : Option RouteFailover
  partition : ℚ
  deriving DecidableEq, Repr

/-- `RoutingTableData::deserialize` in `serde.rs`: sort the map's prefixes
longest-first (ties by bytes ascending), then emit each prefix's routes in
map order as `StaticRoute`s. -/
def routingTableData (cfg : List (ByteStr × List RouteData)) : List StaticRoute :=
  let sorted := (cfg.map Prod.fst).insertionSort prefOrd
  sorted.flatMap fun p =>
    ((cfg.lookup p).getD []).map fun d =>
      { targetPrefix := p
        nextHop := d.nextHop
        account := d.account
        failover := d.failover
        partition := d.partition }

/-! ## Router service (`service.rs`) -/

/-- `RouterService::make_reject`: a locally generated Reject carries the
connector's own address as `triggered_by`. -/
def makeRouterReject (address : ByteStr) (code : ErrorCode) (message : String) : Reject :=
  { code, message, triggeredBy := some address, data := [] }

/-- `response_is_ok` in `service.rs`: a response is unhealthy exactly when
it is a Reject with code `T01_PEER_UNREACHABLE` triggered by this connector
itself. -/
def response_is_ok (connectorAddress : ByteStr)
    (response : Except Reject Fulfill) : Bool :=
  let isUnhealthy :=
    match response with
    | .ok _ => false
    | .error reject =>
      decide (reject.code = ErrorCode.T01_PEER_UNREACHABLE)
        && decide (reject.triggeredBy = some connectorAddress)
  !isUnhealthy

/-- The observable outcome of the resolution half of `RouterService::forward`:
a local Reject, or a dispatch of the resolved route. -/
inductive ForwardAction where
  | reject (r : Reject)
  | dispatch (groupIndex routeIndex : Nat) (route : DynamicRoute)
  deriving DecidableEq, Repr

/-- The resolution half of `RouterService::forward` in `service.rs`: map
`RoutingError::NoRoute` to `F02_UNREACHABLE "no route exists"`, map
`RoutingError::NoHealthyRoute` to `T01_PEER_UNREACHABLE "no healthy route
found"`, and otherwise dispatch the resolved route. -/
def RouterService.forward (address : ByteStr) (t : RoutingTable) (now : Nat)
    (prepare : Prepare) (hashPosition : ℚ) : ForwardAction :=
  match t.resolve now prepare hashPosition with
  | .error .NoRoute =>
    .reject (makeRouterReject address .F02_UNREACHABLE "no route exists")
  | .error .NoHealthyRoute =>
    .reject (makeRouterReject address .T01_PEER_UNREACHABLE "no healthy route found")
  | .ok (groupIndex, routeIndex, route) => .dispatch groupIndex routeIndex route

/-! ## Expiry service (`expiry.rs`)

The downstream future is modelled by its result and its latency; the service
either rejects before invoking it, or runs it under a computed timeout. -/

deriving instance DecidableEq for Except

/-- The downstream service of the Expiry service, modelled by how long it
takes and what it returns. -/
structure DownstreamCall where
  latency : Nat
  result : Except Reject Fulfill
  deriving DecidableEq, Repr

/-- Outcome of `ExpiryService::call`: either a Reject produced before the
downstream service is invoked, or a completed downstream call. -/
inductive ExpiryOutcome where
  | rejectedEarly (r : Reject)
  | completed (r : Except Reject Fulfill)
  deriving DecidableEq, Repr

/-- `ExpiryService::make_reject`: local Rejects carry the connector's own
address as `triggered_by`. -/
def makeExpiryReject (address : ByteStr) (code : ErrorCode) (message : String) : Reject :=
  { code, message, triggeredBy := some address, data := [] }

/-- The timeout applied to the downstream call:
`min(max_timeout, expires_at − now)`. -/
def expiryTimeout (maxTimeout now expiresAt : Nat) : Nat :=
  min maxTimeout (expiresAt - now)

/-- `ExpiryService::call` in `expiry.rs`. `expires_at.duration_since(now)`
fails exactly when `expires_at < now`, producing `R02_INSUFFICIENT_TIMEOUT`
with no downstream call; otherwise the downstream call runs under
`min(max_timeout, expires_at − now)`, and an elapsed timer produces
`R00_TRANSFER_TIMED_OUT`. Downstream results within the timeout pass
through unchanged. -/
def ExpiryService.call (address : ByteStr) (maxTimeout now expiresAt : Nat)
    (downstream : DownstreamCall) : ExpiryOutcome :=
  if expiresAt < now then
    .rejectedEarly (makeExpiryReject address .R02_INSUFFICIENT_TIMEOUT "insufficient timeout")
  else if downstream.latency ≤ expiryTimeout maxTimeout now expiresAt then
    .completed downstream.result
  else
    .completed (.error (makeExpiryReject address .R00_TRANSFER_TIMED_OUT "request timed out"))

/-! ## Outbound HTTP client (`client.rs`)

An HTTP attempt is modelled by the peer's behavior: a transport error, or a
response with a status code and a body. Since `packet.rs` (the parser run by
`Client::decode_response`) is absent from `src/`, a response body is
modelled by its parse outcome. -/

/-- Modelled from the spec: `Packet::try_from` (`packet.rs` is absent from
`src/`). A 200-response body either parses as a Fulfill, parses as a
Reject, or is invalid. -/
inductive HttpBody where
  | fulfillBody (f : Fulfill)
  | rejectBody (r : Reject)
  | invalid
  deriving DecidableEq, Repr

/-- An HTTP response from the peer: status code and body. -/
structure HttpResponse where
  status : Nat
  body : HttpBody
  deriving DecidableEq, Repr

/-- One HTTP attempt's outcome: a response, or a transport error / abort. -/
inductive HttpOutcome where
  | response (r : HttpResponse)
  | transportError
  deriving DecidableEq, Repr

/-- `Client::make_reject`: client-generated Rejects carry the connector's
own address as `triggered_by`. -/
def makeClientReject (address : ByteStr) (code : ErrorCode) (message : String) : Reject :=
  { code, message, triggeredBy := some address, data := [] }

/-- `Client::decode_http_response` + `Client::decode_response` in
`client.rs`: 200 bodies are decoded as Fulfill/Reject (invalid bytes map to
`T00`), 4xx maps to `F00 "bad request to peer"`, 5xx to
`T01 "peer internal error"`, anything else to `T00`. -/
def decodeHttpResponse (address : ByteStr) (r : HttpResponse) : Except Reject Fulfill :=
  if r.status = 200 then
    match r.body with
    | .fulfillBody f => .ok f
    | .rejectBody reject => .error reject
    | .invalid =>
      .error (makeClientReject address .T00_INTERNAL_ERROR "invalid response body from peer")
  else if 400 ≤ r.status ∧ r.status ≤ 499 then
    .error (makeClientReject address .F00_BAD_REQUEST "bad request to peer")
  else if 500 ≤ r.status ∧ r.status ≤ 599 then
    .error (makeClientReject address .T01_PEER_UNREACHABLE "peer internal error")
  else
    .error (makeClientReject address .T00_INTERNAL_ERROR "unexpected response code from peer")

/-- `Client::request` in `client.rs`: send the serialized Prepare; when the
first attempt yields a 502 response, rebuild the request with the identical
body and retry exactly once, decoding whatever the retry returns; a
transport error on either attempt maps to `T01 "peer connection error"`.
Each attempt is a function of the body sent, so the retry's body is the same
`body` by construction. -/
def Client.request (address : ByteStr) (attempt1 attempt2 : ByteStr → HttpOutcome)
    (body : ByteStr) : Except Reject Fulfill :=
  match attempt1 body with
  | .transportError =>
    .error (makeClientReject address .T01_PEER_UNREACHABLE "peer connection error")
  | .response r =>
    if r.status = 502 then
      match attempt2 body with
      | .transportError =>
        .error (makeClientReject address .T01_PEER_UNREACHABLE "peer connection error")
      | .response r2 => decodeHttpResponse address r2
    else
      decodeHttpResponse address r

/-! ## ILDCP config service (`ildcp.rs` of the relay) -/

/-- `Relation` of the peer a request came from (`PeerRelation`). -/
inductive PeerRelation where
  | child
  | peer
  | parent
  deriving DecidableEq, Repr

/-- `ildcp::Response` data (the packet crate's `ildcp.rs`): a client
address, an asset scale and an asset code. -/
structure IldcpResponse where
  clientAddress : ByteStr
  assetScale : Nat
  assetCode : ByteStr
  deriving DecidableEq, Repr

/-- `ildcp::DESTINATION`: the literal `peer.config`. -/
def ILDCP_DESTINATION : ByteStr := asciiBytes "peer.config"

/-- A request as seen by the ConfigService: the Prepare, the value of the
`ILP-Peer-Name` header, and the peer annotations added by FromPeer. -/
structure RequestFromPeer where
  prepare : Prepare
  peerName : Option ByteStr
  fromRelation : PeerRelation
  fromAddress : ByteStr
  deriving DecidableEq, Repr

/-- Modelled from the spec: `Address::with_suffix` (`address.rs` is absent
from `src/`). Per §4.3.3, the `ILP-Peer-Name` must be valid as an address
segment and the generated address `from_address ⧺ "." ⧺ peer_name` must
itself validate (length). -/
def withSuffix (address suffix : ByteStr) : Option ByteStr :=
  let result := address ++ [46] ++ suffix
  if validateAddressSegment suffix && decide (result.length ≤ 1023) then
    some result
  else
    none

/-- Outcome of `ConfigService::call`: pass the request through, answer with
an ILDCP response wrapped in a Fulfill, or reject. -/
inductive ConfigOutcome where
  | passthrough
  | fulfillResponse (r : IldcpResponse)
  | rejected (r : Reject)
  deriving DecidableEq, Repr

/-- `ConfigService::make_reject`: Rejects are triggered by the connector's
configured client address. -/
def makeConfigReject (config : IldcpResponse) (code : ErrorCode) (message : String) : Reject :=
  { code, message, triggeredBy := some config.clientAddress, data := [] }

/-- `ConfigService::call` in the relay's `ildcp.rs`: non-`peer.config`
destinations pass through; a missing `ILP-Peer-Name` header, a non-child
relation, or a failed address concatenation yield `F00_BAD_REQUEST`;
otherwise the Fulfill carries `from_address ⧺ "." ⧺ peer_name` with the
connector's configured asset scale and code. -/
def ConfigService.call (config : IldcpResponse) (request : RequestFromPeer) : ConfigOutcome :=
  if request.prepare.destination ≠ ILDCP_DESTINATION then
    .passthrough
  else
    match request.peerName with
    | none => .rejected (makeConfigReject config .F00_BAD_REQUEST "Missing ILP-Peer-Name header")
    | some peerName =>
      match request.fromRelation with
      | .child =>
        match withSuffix request.fromAddress peerName with
        | some clientAddress =>
          .fulfillResponse
            { clientAddress
              assetScale := config.assetScale
              assetCode := config.assetCode }
        | none =>
          .rejected (makeConfigReject config .F00_BAD_REQUEST "Invalid generated client address")
      | _ => .rejected (makeConfigReject config .F00_BAD_REQUEST "ILDCP request from non-child peer")

/-! ## OER var-octet-strings and the echo service (`echo.rs`) -/

/-- Big-endian value of a byte string. -/
def beValue (bytes : ByteStr) : Nat :=
  bytes.foldl (fun acc b => acc * 256 + b) 0

/-- Modelled from the spec: `oer.rs` is absent from `src/`. The
variable-length unsigned length of §4.1: one byte if below 128, otherwise
the high bit set plus the big-endian byte count (1..=8 bytes) of the
length. Returns the length and the remaining bytes. -/
def readVarLen (b : ByteStr) : Option (Nat × ByteStr) :=
  match b with
  | [] => none
  | n :: rest =>
    if n < 128 then
      some (n, rest)
    else
      let count := n - 128
      if 1 ≤ count ∧ count ≤ 8 ∧ count ≤ rest.length then
        some (beValue (rest.take count), rest.drop count)
      else
        none

/-- Modelled from the spec: `oer.rs` is absent from `src/`.
`peek_var_octet_string`: a length prefix followed by that many payload
bytes (trailing bytes are ignored). -/
def peekVarOctetString (b : ByteStr) : Option ByteStr :=
  match readVarLen b with
  | none => none
  | some (len, rest) =>
    if len ≤ rest.length then some (rest.take len) else none

/-- `ECHO_REQUEST_PREFIX` in `echo.rs`: the 17-byte magic
`ECHOECHOECHOECHO\x00`. -/
def echoRequestMagic : ByteStr := asciiBytes "ECHOECHOECHOECHO" ++ [0]

/-- `ECHO_RESPONSE` in `echo.rs`: the 17-byte magic `ECHOECHOECHOECHO\x01`. -/
def echoResponseMagic : ByteStr := asciiBytes "ECHOECHOECHOECHO" ++ [1]

/-- `MIN_MESSAGE_WINDOW` in `echo.rs`: 1 second. -/
def MIN_MESSAGE_WINDOW : Nat := 1

/-- `deserialize_echo_request` in `echo.rs`: the data must start with the
echo request magic, followed by a var-octet-string holding a valid source
address. -/
def deserializeEchoRequest (reader : ByteStr) : Option ByteStr :=
  if echoRequestMagic.isPrefixOf reader then
    match peekVarOctetString (reader.drop echoRequestMagic.length) with
    | none => none
    | some addrBytes => addrTryFrom addrBytes
  else
    none

/-- Outcome of `EchoService::call`: forward a Prepare downstream (the
incoming one, or the rewritten echo response), or reject. -/
inductive EchoOutcome where
  | forward (p : Prepare)
  | rejected (r : Reject)
  deriving DecidableEq, Repr

/-- `EchoService::call` in `echo.rs`: Prepares not addressed to the
connector itself pass through; a malformed echo payload yields
`F01_INVALID_PACKET`; a valid one is rewritten to the parsed source address
with the response magic as data and `expires_at` reduced by 1 second,
preserving amount and execution condition. -/
def EchoService.call (address : ByteStr) (prepare : Prepare) : EchoOutcome :=
  if address ≠ prepare.destination then
    .forward prepare
  else
    match deserializeEchoRequest prepare.data with
    | none =>
      .rejected
        { code := .F01_INVALID_PACKET
          message := "invalid echo request"
          triggeredBy := some address
          data := [] }
    | some fromAddr =>
      .forward
        { amount := prepare.amount
          expiresAt := prepare.expiresAt - MIN_MESSAGE_WINDOW
          executionCondition := prepare.executionCondition
          destination := fromAddr
          data := echoResponseMagic }

example :
    deserializeEchoRequest (echoRequestMagic ++ [11] ++ asciiBytes "test.origin")
      = some (asciiBytes "test.origin") := by decide
example : deserializeEchoRequest echoResponseMagic = none := by decide
example : deserializeEchoRequest (echoRequestMagic ++ [5] ++ asciiBytes "ab") = none := by decide

/-! ## Shared concrete sample values for witnesses -/

/-- A concrete connector address used by witnesses. -/
def sampleAddr : ByteStr := asciiBytes "example.connector"

/-- A concrete Fulfill used by witnesses. -/
def sampleFulfill : Fulfill := ⟨List.replicate 32 7, []⟩

/-! ## C3: the health update performs exactly the specified transition -/

/-- The health transition as the specification words it (claim C3):
Infallible stays Infallible; Healthy first resets the window if
`now − updated_at` exceeds 5 minutes, then decrements `remaining`, adds the
failure, sets `updated_at = now`, transitions to
`Unhealthy{until = now + fail_duration}` when
`failures / window_size ≥ fail_ratio`, and otherwise resets the window when
`remaining` reaches 0; `Unhealthy{until}` is unchanged when `now < until`
and otherwise becomes
`Healthy{remaining = window_size − (failure?1:0), failures = (failure?1:0), updated_at = now}`. -/
def updateTransitionSpec (failover : RouteFailover) (isSuccess : Bool) (now : Nat) :
    RouteStatus → RouteStatus
  | .infallible => .infallible
  | .healthy remaining failures updatedAt =>
    let windowExpired := MAX_WINDOW_DURATION < now - updatedAt
    let remaining0 := if windowExpired then failover.windowSize else remaining
    let failures0 := if windowExpired then 0 else failures
    let remaining1 := remaining0 - 1
    let failures1 := failures0 + (if isSuccess then 0 else 1)
    if ((failures1 : ℚ) / (failover.windowSize : ℚ)) ≥ failover.failRatio then
      .unhealthy (now + failover.failDuration)
    else if remaining1 = 0 then
      .healthy failover.windowSize 0 now
    else
      .healthy remaining1 failures1 now
  | .unhealthy untilTime =>
    if now < untilTime then .unhealthy untilTime
    else
      .healthy (failover.windowSize - (if isSuccess then 0 else 1))
        (if isSuccess then 0 else 1) now

/-- C3: for every failover config, current status, outcome and observation
time, `DynamicRoute::update_with_now` performs exactly the transition the
specification describes (`updateTransitionSpec`). -/
theorem update_with_now_matches_spec :
    ∀ (failover : RouteFailover) (isSuccess : Bool) (now : Nat) (status : RouteStatus),
      update_with_now failover isSuccess now status
        = updateTransitionSpec failover isSuccess now status := by
  intro failover isSuccess now status
  cases status <;>
    simp [update_with_now, updateTransitionSpec, ge_iff_le]

/-! ## C4: what counts as unhealthy for route-health accounting -/

/-- C4: a response counts as unhealthy (`response_is_ok = false`) iff it is
a Reject with code `T01_PEER_UNREACHABLE` whose `triggered_by` is this
connector's own address; every Fulfill and every Reject triggered elsewhere
counts as success. -/
theorem response_is_ok_iff :
    ∀ (connectorAddress : ByteStr) (response : Except Reject Fulfill),
      response_is_ok connectorAddress response = false
        ↔ ∃ reject, response = .error reject
            ∧ reject.code = ErrorCode.T01_PEER_UNREACHABLE
            ∧ reject.triggeredBy = some connectorAddress := by
  intro connectorAddress response
  cases response with
  | ok fulfill => simp [response_is_ok]
  | error reject => simp [response_is_ok]

/-! ## C5: the expiry service -/

/-- C5: a Prepare whose `expires_at` is already past is rejected with
`R02_INSUFFICIENT_TIMEOUT` before the downstream service is invoked;
otherwise the downstream call runs under a timeout of
`min(max_timeout, expires_at − now)`; an elapsed timeout yields
`R00_TRANSFER_TIMED_OUT`, and downstream results that arrive in time pass
through unchanged. -/
theorem expiry_service_spec :
    ∀ (address : ByteStr) (maxTimeout now expiresAt : Nat) (downstream : DownstreamCall),
      (expiresAt < now →
        ExpiryService.call address maxTimeout now expiresAt downstream
          = .rejectedEarly
              (makeExpiryReject address .R02_INSUFFICIENT_TIMEOUT "insufficient timeout"))
      ∧ (now ≤ expiresAt →
          (expiryTimeout maxTimeout now expiresAt < downstream.latency →
            ExpiryService.call address maxTimeout now expiresAt downstream
              = .completed (.error
                  (makeExpiryReject address .R00_TRANSFER_TIMED_OUT "request timed out")))
          ∧ (downstream.latency ≤ expiryTimeout maxTimeout now expiresAt →
            ExpiryService.call address maxTimeout now expiresAt downstream
              = .completed downstream.result)) := by
  intro address maxTimeout now expiresAt downstream
  refine ⟨fun h => ?_, fun h => ⟨fun hlat => ?_, fun hlat => ?_⟩⟩
  · simp [ExpiryService.call, h]
  · simp [ExpiryService.call, Nat.not_lt.2 h, Nat.not_le.2 hlat]
  · simp [ExpiryService.call, Nat.not_lt.2 h, hlat]

/-- Witness for C5 at concrete inputs: an expired Prepare is rejected
early; a timely downstream Fulfill passes through; a slow downstream call
times out. -/
theorem expiry_service_spec_witness :
    ExpiryService.call sampleAddr 60 10 5 ⟨0, .ok sampleFulfill⟩
      = .rejectedEarly
          (makeExpiryReject sampleAddr .R02_INSUFFICIENT_TIMEOUT "insufficient timeout")
    ∧ ExpiryService.call sampleAddr 60 10 20 ⟨3, .ok sampleFulfill⟩
        = .completed (.ok sampleFulfill)
    ∧ ExpiryService.call sampleAddr 60 10 20 ⟨11, .ok sampleFulfill⟩
        = .completed (.error
            (makeExpiryReject sampleAddr .R00_TRANSFER_TIMED_OUT "request timed out")) :=
  ⟨(expiry_service_spec sampleAddr 60 10 5 ⟨0, .ok sampleFulfill⟩).1 (by decide),
   ((expiry_service_spec sampleAddr 60 10 20 ⟨3, .ok sampleFulfill⟩).2 (by decide)).2 (by decide),
   ((expiry_service_spec sampleAddr 60 10 20 ⟨11, .ok sampleFulfill⟩).2 (by decide)).1 (by decide)⟩

/-! ## C9: route availability and re-admission after expiry

`is_available` readmits an unhealthy route only strictly after `until`
(`until < now`); at `now = until` exactly the route is still unavailable,
so the claim's "once now ≥ until" bound is off by one instant. -/

/-- A concrete route, unhealthy until instant 5, for the C9
counterexample/witness. -/
def demotedRoute : DynamicRoute :=
  { config :=
      { targetPrefix := asciiBytes "test."
        nextHop := .bilateral "http://peer/ilp" none
        account := "peer"
        failover := some ⟨20, 1, 2⟩
        partition := 1 }
    status := .unhealthy 5 }

/-- A concrete one-group, one-route table holding `demotedRoute`. -/
def demotedTable : RoutingTable :=
  ⟨.destination, [⟨asciiBytes "test.", [demotedRoute]⟩]⟩

/-- A concrete Prepare destined inside `demotedTable`'s only prefix. -/
def demotedPrepare : Prepare :=
  { amount := 1
    expiresAt := 100
    executionCondition := List.replicate 32 0
    destination := asciiBytes "test.bob"
    data := [] }

/-- C9 counterexample: at `now = until` (so `now ≥ until`), the demoted
route is still unavailable and resolution still reports no healthy route,
contradicting the claim's "once now ≥ until the next resolution uses that
route again". -/
theorem is_available_at_expiry_cex :
    (5 : Nat) ≥ 5
    ∧ is_available 5 (RouteStatus.unhealthy 5) = false
    ∧ demotedTable.resolve 5 demotedPrepare 0 = .error .NoHealthyRoute := by
  refine ⟨by decide, by decide, ?_⟩
  decide

/-- C9 (amended: re-admission happens once `now > until`, i.e. `until < now`,
matching the strict bound of `is_available`): `is_available` returns true
exactly for Infallible, Healthy, and Unhealthy with `until < now`; and for a
route demoted to Unhealthy, once `until < now` the next resolution uses that
route again (the probe is admitted before any outcome transitions the state
back to Healthy). -/
theorem is_available_spec :
    (∀ (now : Nat) (s : RouteStatus),
      is_available now s = true
        ↔ (s = .infallible
            ∨ (∃ remaining failures updatedAt,
                s = .healthy remaining failures updatedAt)
            ∨ (∃ untilTime, s = .unhealthy untilTime ∧ untilTime < now)))
    ∧ (∀ (t : RoutingTable) (now : Nat) (prepare : Prepare) (hashPosition : ℚ)
        (gi : Nat) (g : RouteGroup) (route : DynamicRoute) (untilTime : Nat),
        t.resolveGroup prepare.destination = some (gi, g) →
        g.routes = [route] →
        route.status = .unhealthy untilTime →
        untilTime < now →
        t.resolve now prepare hashPosition = .ok (gi, 0, route)) := by
  constructor
  · intro now s
    cases s <;> simp [is_available]
  · intro t now prepare hashPosition gi g route untilTime hg hroutes hst hu
    have hav : is_available now route.status = true := by
      rw [hst]; simp [is_available, hu]
    simp [RoutingTable.resolve, hg, hroutes, hav, List.enum, List.enumFrom, walkRoutes]

/-- Witness for C9's resolution part: the demoted route is used again at
`now = 6 > until = 5`. -/
theorem is_available_spec_witness :
    demotedTable.resolve 6 demotedPrepare 0 = .ok (0, 0, demotedRoute) :=
  is_available_spec.2 demotedTable 6 demotedPrepare 0 0
    ⟨asciiBytes "test.", [demotedRoute]⟩ demotedRoute 5
    (by decide) rfl rfl (by decide)

/-! ## C10: no underflow of `remaining` on reachable states

The claim fails at `window_size = 1`: after an unhealthy period expires, a
failed probe produces `Healthy{remaining = window_size − 1 = 0}`, and the
next update's unguarded `remaining -= 1` underflows. With
`window_size ≥ 2` every reachable Healthy state has `remaining ≥ 1`. -/

/-- C10 counterexample: with failover `{window_size = 1, fail_ratio = 1,
fail_duration = 1}`, the state `Healthy{remaining = 0, failures = 1}` is
reachable (fail at t=1 → Unhealthy{until = 2}; fail again at t=3), so the
claim's `remaining ≥ 1` invariant is false at `window_size = 1 ≥ 1`. -/
theorem route_health_underflow_cex :
    ReachableStatus ⟨1, 1, 1⟩ (RouteStatus.healthy 0 1 3) ∧ ¬ (1 ≤ (0 : Nat)) := by
  constructor
  · have h0 : ReachableStatus ⟨1, 1, 1⟩ (RouteStatus.healthy 1 0 0) :=
      ReachableStatus.init 0
    have h1 := ReachableStatus.step false 1 h0
    rw [show update_with_now ⟨1, 1, 1⟩ false 1 (RouteStatus.healthy 1 0 0)
          = RouteStatus.unhealthy 2 from by
        norm_num [update_with_now, MAX_WINDOW_DURATION]] at h1
    have h2 := ReachableStatus.step false 3 h1
    rw [show update_with_now ⟨1, 1, 1⟩ false 3 (RouteStatus.unhealthy 2)
          = RouteStatus.healthy 0 1 3 from by
        norm_num [update_with_now]] at h2
    exact h2
  · decide

/-- C10 (amended: for `window_size ≥ 2`): every status reachable from the
initial Healthy window under arbitrary updates keeps `remaining ≥ 1`
whenever it is Healthy, so the unguarded decrement in `update_with_now`
cannot underflow. -/
theorem route_health_no_underflow :
    ∀ (failover : RouteFailover), 2 ≤ failover.windowSize →
      ∀ s, ReachableStatus failover s →
        ∀ remaining failures updatedAt,
          s = RouteStatus.healthy remaining failures updatedAt → 1 ≤ remaining := by
  intro failover hw s hs
  induction hs with
  | init t0 =>
    intro r f u he
    injection he with h1 h2 h3
    omega
  | step isSuccess now hprev ih =>
    rename_i s0
    intro r f u he
    cases s0 with
    | infallible => simp [update_with_now] at he
    | healthy r0 f0 u0 =>
      simp only [update_with_now] at he
      split_ifs at he <;> (injection he with h1 h2 h3; omega)
    | unhealthy t0 =>
      simp only [update_with_now] at he
      split_ifs at he <;> (injection he with h1 h2 h3; omega)

/-- Witness for C10: the initial state of a `window_size = 2` route is
reachable and the theorem yields `remaining ≥ 1` there. -/
theorem route_health_no_underflow_witness :
    ReachableStatus ⟨2, 1, 1⟩ (RouteStatus.healthy 2 0 0) ∧ 1 ≤ 2 :=
  ⟨ReachableStatus.init 0,
   route_health_no_underflow ⟨2, 1, 1⟩ (by decide)
     (RouteStatus.healthy 2 0 0) (ReachableStatus.init 0) 2 0 0 rfl⟩

/-! ## C6: the outbound client's single 502 retry -/

/-- C6: when the first attempt yields a 502 response, the client retries
exactly once with the identical body (`attempt2 body` — the same `body`),
and the retried response is decoded with no further retry; a retry of
200 + valid Fulfill returns that Fulfill, and a second 502 returns
`T01_PEER_UNREACHABLE "peer internal error"`. -/
theorem client_retry_once :
    ∀ (address : ByteStr) (attempt1 attempt2 : ByteStr → HttpOutcome) (body : ByteStr)
      (r1 : HttpResponse),
      attempt1 body = .response r1 → r1.status = 502 →
      (Client.request address attempt1 attempt2 body
        = match attempt2 body with
          | .transportError =>
            .error (makeClientReject address .T01_PEER_UNREACHABLE "peer connection error")
          | .response r2 => decodeHttpResponse address r2)
      ∧ (∀ (r2 : HttpResponse) (f : Fulfill),
          attempt2 body = .response r2 → r2.status = 200 → r2.body = .fulfillBody f →
          Client.request address attempt1 attempt2 body = .ok f)
      ∧ (∀ r2 : HttpResponse,
          attempt2 body = .response r2 → r2.status = 502 →
          Client.request address attempt1 attempt2 body
            = .error (makeClientReject address .T01_PEER_UNREACHABLE "peer internal error")) := by
  intro address attempt1 attempt2 body r1 h1 h502
  have hbase :
      Client.request address attempt1 attempt2 body
        = match attempt2 body with
          | .transportError =>
            .error (makeClientReject address .T01_PEER_UNREACHABLE "peer connection error")
          | .response r2 => decodeHttpResponse address r2 := by
    simp [Client.request, h1, h502]
  refine ⟨hbase, ?_, ?_⟩
  · intro r2 f h2 h200 hf
    rw [hbase, h2]
    simp [decodeHttpResponse, h200, hf]
  · intro r2 h2 h5022
    rw [hbase, h2]
    norm_num [decodeHttpResponse, h5022]

/-- A peer behavior that always answers 502. -/
def peer502 : ByteStr → HttpOutcome := fun _ => .response ⟨502, .invalid⟩

/-- A peer behavior that always answers 200 with a valid Fulfill. -/
def peer200Fulfill : ByteStr → HttpOutcome :=
  fun _ => .response ⟨200, .fulfillBody sampleFulfill⟩

/-- Witness for C6: 502 then 200+Fulfill returns the Fulfill; 502 twice
returns `T01 "peer internal error"`. -/
theorem client_retry_once_witness :
    Client.request sampleAddr peer502 peer200Fulfill [] = .ok sampleFulfill
    ∧ Client.request sampleAddr peer502 peer502 []
        = .error (makeClientReject sampleAddr .T01_PEER_UNREACHABLE "peer internal error") :=
  ⟨(client_retry_once sampleAddr peer502 peer200Fulfill [] ⟨502, .invalid⟩ rfl rfl).2.1
      ⟨200, .fulfillBody sampleFulfill⟩ sampleFulfill rfl rfl rfl,
   (client_retry_once sampleAddr peer502 peer502 [] ⟨502, .invalid⟩ rfl rfl).2.2
      ⟨502, .invalid⟩ rfl rfl⟩

/-! ## C7: the ILDCP config service -/

/-- C7: a `peer.config` Prepare from a Child carrying a valid
`ILP-Peer-Name` is answered (without calling downstream) with an
IldcpResponse whose client address is the peer's `from_address` extended by
exactly one dot-separated segment equal to the header value (the segment's
characters exclude the dot, so exactly one segment is added), together with
the connector's configured asset scale and code; a non-child relation, a
missing header, or a failed concatenation yields `F00_BAD_REQUEST`. -/
theorem config_service_spec :
    ∀ (config : IldcpResponse) (request : RequestFromPeer),
      request.prepare.destination = ILDCP_DESTINATION →
      (∀ (peerName clientAddress : ByteStr),
        request.peerName = some peerName →
        request.fromRelation = .child →
        withSuffix request.fromAddress peerName = some clientAddress →
        ConfigService.call config request
          = .fulfillResponse
              { clientAddress := request.fromAddress ++ [46] ++ peerName
                assetScale := config.assetScale
                assetCode := config.assetCode }
          ∧ validateAddressSegment peerName = true)
      ∧ (request.peerName = none →
          ∃ reject, ConfigService.call config request = .rejected reject
            ∧ reject.code = .F00_BAD_REQUEST)
      ∧ (request.fromRelation ≠ .child →
          ∃ reject, ConfigService.call config request = .rejected reject
            ∧ reject.code = .F00_BAD_REQUEST)
      ∧ (∀ peerName : ByteStr,
          request.peerName = some peerName →
          withSuffix request.fromAddress peerName = none →
          ∃ reject, ConfigService.call config request = .rejected reject
            ∧ reject.code = .F00_BAD_REQUEST) := by
  intro config request hdest
  refine ⟨?_, ?_, ?_, ?_⟩
  · intro peerName clientAddress hpn hrel hws
    have hseg : validateAddressSegment peerName = true
        ∧ clientAddress = request.fromAddress ++ [46] ++ peerName := by
      simp only [withSuffix] at hws
      split at hws
      · rename_i hcond
        rw [Bool.and_eq_true] at hcond
        injection hws with hv
        exact ⟨hcond.1, hv.symm⟩
      · exact absurd hws (by simp)
    refine ⟨?_, hseg.1⟩
    rw [hseg.2] at hws
    simp [ConfigService.call, hdest, hpn, hrel, hws]
  · intro hpn
    exact ⟨makeConfigReject config .F00_BAD_REQUEST "Missing ILP-Peer-Name header",
      by simp [ConfigService.call, hdest, hpn], rfl⟩
  · intro hrel
    cases hpn : request.peerName with
    | none =>
      exact ⟨makeConfigReject config .F00_BAD_REQUEST "Missing ILP-Peer-Name header",
        by simp [ConfigService.call, hdest, hpn], rfl⟩
    | some peerName =>
      cases hr : request.fromRelation with
      | child => exact absurd hr hrel
      | peer =>
        exact ⟨makeConfigReject config .F00_BAD_REQUEST "ILDCP request from non-child peer",
          by simp [ConfigService.call, hdest, hpn, hr], rfl⟩
      | parent =>
        exact ⟨makeConfigReject config .F00_BAD_REQUEST "ILDCP request from non-child peer",
          by simp [ConfigService.call, hdest, hpn, hr], rfl⟩
  · intro peerName hpn hws
    cases hr : request.fromRelation with
    | child =>
      exact ⟨makeConfigReject config .F00_BAD_REQUEST "Invalid generated client address",
        by simp [ConfigService.call, hdest, hpn, hr, hws], rfl⟩
    | peer =>
      exact ⟨makeConfigReject config .F00_BAD_REQUEST "ILDCP request from non-child peer",
        by simp [ConfigService.call, hdest, hpn, hr], rfl⟩
    | parent =>
      exact ⟨makeConfigReject config .F00_BAD_REQUEST "ILDCP request from non-child peer",
        by simp [ConfigService.call, hdest, hpn, hr], rfl⟩

/-- The connector's configured ILDCP data used by the C7 witness. -/
def connectorConfig : IldcpResponse := ⟨asciiBytes "test.relay", 9, asciiBytes "XRP"⟩

/-- A concrete ILDCP request from a child peer with `ILP-Peer-Name: carol`. -/
def childRequest : RequestFromPeer :=
  { prepare :=
      { amount := 0
        expiresAt := 60
        executionCondition := List.replicate 32 0
        destination := ILDCP_DESTINATION
        data := [] }
    peerName := some (asciiBytes "carol")
    fromRelation := .child
    fromAddress := asciiBytes "test.relay.childX" }

/-- Witness for C7: the child at `test.relay.childX` asking with peer name
`carol` receives `client_address = test.relay.childX.carol` with the
configured scale and code. -/
theorem config_service_spec_witness :
    ConfigService.call connectorConfig childRequest
      = .fulfillResponse
          ⟨asciiBytes "test.relay.childX" ++ [46] ++ asciiBytes "carol", 9, asciiBytes "XRP"⟩
    ∧ validateAddressSegment (asciiBytes "carol") = true :=
  (config_service_spec connectorConfig childRequest rfl).1
    (asciiBytes "carol")
    (asciiBytes "test.relay.childX" ++ [46] ++ asciiBytes "carol")
    rfl rfl (by decide)

/-! ## C8: the echo service -/

/-- C8: a Prepare addressed to the connector whose data is the 17-byte echo
request magic followed by a var-octet-string holding a valid source address
is rewritten: destination becomes that source, data becomes the echo
response magic, `expires_at` drops by exactly 1 second, amount and
execution condition are preserved, and the rewritten Prepare is forwarded
downstream; a malformed echo payload yields `F01_INVALID_PACKET`; other
destinations pass through unmodified. -/
theorem echo_service_spec :
    ∀ (address : ByteStr) (prepare : Prepare),
      (∀ sourceAddr : ByteStr,
        prepare.destination = address →
        echoRequestMagic.isPrefixOf prepare.data = true →
        peekVarOctetString (prepare.data.drop echoRequestMagic.length) = some sourceAddr →
        validAddress sourceAddr = true →
        EchoService.call address prepare
          = .forward
              { amount := prepare.amount
                expiresAt := prepare.expiresAt - 1
                executionCondition := prepare.executionCondition
                destination := sourceAddr
                data := echoResponseMagic })
      ∧ (prepare.destination = address →
          deserializeEchoRequest prepare.data = none →
          EchoService.call address prepare
            = .rejected ⟨.F01_INVALID_PACKET, "invalid echo request", some address, []⟩)
      ∧ (prepare.destination ≠ address →
          EchoService.call address prepare = .forward prepare) := by
  intro address prepare
  refine ⟨?_, ?_, ?_⟩
  · intro sourceAddr hdest hmagic hpeek hvalid
    have hde : deserializeEchoRequest prepare.data = some sourceAddr := by
      simp [deserializeEchoRequest, hmagic, hpeek, addrTryFrom, hvalid]
    simp [EchoService.call, hdest, hde, MIN_MESSAGE_WINDOW]
  · intro hdest hde
    simp [EchoService.call, hdest, hde]
  · intro hne
    simp [EchoService.call, (Ne.symm hne)]

/-- A concrete valid echo request Prepare addressed to the connector. -/
def echoPrepare : Prepare :=
  { amount := 5
    expiresAt := 60
    executionCondition := List.replicate 32 3
    destination := sampleAddr
    data := echoRequestMagic ++ [11] ++ asciiBytes "test.origin" }

/-- Witness for C8: the echo request with source `test.origin` is rewritten
to destination `test.origin`, response-magic data, and `expires_at`
reduced by exactly one second. -/
theorem echo_service_spec_witness :
    EchoService.call sampleAddr echoPrepare
      = .forward ⟨5, 59, List.replicate 32 3, asciiBytes "test.origin", echoResponseMagic⟩ :=
  (echo_service_spec sampleAddr echoPrepare).1 (asciiBytes "test.origin")
    rfl (by decide) (by decide) (by decide)

/-! ## Helper lemmas on `enumFrom`, `find?` and the partition walk -/

theorem snd_mem_of_mem_enumFrom {α : Type _} :
    ∀ {l : List α} {n : Nat} {x : Nat × α}, x ∈ List.enumFrom n l → x.2 ∈ l := by
  intro l
  induction l with
  | nil => intro n x h; simp [List.enumFrom] at h
  | cons a t ih =>
    intro n x h
    rw [List.enumFrom] at h
    rcases List.mem_cons.mp h with h | h
    · subst h; exact List.mem_cons_self ..
    · exact List.mem_cons_of_mem _ (ih h)

theorem exists_mem_enumFrom {α : Type _} :
    ∀ {l : List α} {r : α}, r ∈ l → ∀ n, ∃ i, (i, r) ∈ List.enumFrom n l := by
  intro l
  induction l with
  | nil => intro r h; simp at h
  | cons a t ih =>
    intro r h n
    rcases List.mem_cons.mp h with h | h
    · exact ⟨n, by rw [List.enumFrom, h]; exact List.mem_cons_self ..⟩
    · obtain ⟨i, hi⟩ := ih h (n + 1)
      exact ⟨i, by rw [List.enumFrom]; exact List.mem_cons_of_mem _ hi⟩

theorem find?_enumFrom_map_snd {α : Type _} (p : α → Bool) :
    ∀ (l : List α) (n : Nat),
      ((List.enumFrom n l).find? (fun x => p x.2)).map Prod.snd = l.find? p := by
  intro l
  induction l with
  | nil => intro n; rfl
  | cons a t ih =>
    intro n
    rw [List.enumFrom, List.find?_cons, List.find?_cons]
    cases hpa : p a with
    | true => rfl
    | false => exact ih (n + 1)

theorem walkRoutes_isSome :
    ∀ (l : List (Nat × DynamicRoute)) (total position : ℚ), l ≠ [] →
      ∃ x, walkRoutes l total position = some x := by
  intro l
  induction l with
  | nil => intro _ _ h; exact absurd rfl h
  | cons x rest ih =>
    intro total position _
    obtain ⟨i, r⟩ := x
    by_cases hc : position ≤ r.config.partition / total ∨ rest = []
    · exact ⟨(i, r), by simp only [walkRoutes]; rw [if_pos hc]⟩
    · have hrest : rest ≠ [] := fun h => hc (Or.inr h)
      obtain ⟨y, hy⟩ := ih total (position - r.config.partition / total) hrest
      exact ⟨y, by simp only [walkRoutes]; rw [if_neg hc]; exact hy⟩

theorem walkRoutes_mem :
    ∀ (l : List (Nat × DynamicRoute)) (total position : ℚ) (x : Nat × DynamicRoute),
      walkRoutes l total position = some x → x ∈ l := by
  intro l
  induction l with
  | nil => intro _ _ x h; exact absurd h (by simp [walkRoutes])
  | cons y rest ih =>
    intro total position x h
    obtain ⟨i, r⟩ := y
    simp only [walkRoutes] at h
    split at h
    · injection h with h'; subst h'; exact List.mem_cons_self ..
    · exact List.mem_cons_of_mem _ (ih _ _ _ h)

/-! ## C2: the router's error mapping and successful resolution -/

/-- C2: when no group's target prefix matches the destination, the router
rejects with `F02_UNREACHABLE "no route exists"`; when a group matches but
none of its routes is available, it rejects with
`T01_PEER_UNREACHABLE "no healthy route found"` (both Rejects triggered by
the connector's own address); and when the matched group has an available
route, resolution dispatches one of that group's available routes. -/
theorem router_forward_spec :
    ∀ (address : ByteStr) (t : RoutingTable) (now : Nat) (prepare : Prepare)
      (hashPosition : ℚ),
      ((∀ g ∈ t.groups, g.targetPrefix.isPrefixOf prepare.destination = false) →
        RouterService.forward address t now prepare hashPosition
          = .reject (makeRouterReject address .F02_UNREACHABLE "no route exists"))
      ∧ (∀ (gi : Nat) (g : RouteGroup),
          t.resolveGroup prepare.destination = some (gi, g) →
          ((∀ r ∈ g.routes, is_available now r.status = false) →
            RouterService.forward address t now prepare hashPosition
              = .reject
                  (makeRouterReject address .T01_PEER_UNREACHABLE "no healthy route found"))
          ∧ ((∃ r ∈ g.routes, is_available now r.status = true) →
            ∃ (ri : Nat) (route : DynamicRoute),
              RouterService.forward address t now prepare hashPosition
                = .dispatch gi ri route
              ∧ route ∈ g.routes ∧ is_available now route.status = true)) := by
  intro address t now prepare hashPosition
  constructor
  · intro hall
    have hnone : t.resolveGroup prepare.destination = none := by
      refine List.find?_eq_none.mpr fun x hx => ?_
      simp [hall x.2 (snd_mem_of_mem_enumFrom hx)]
    simp [RouterService.forward, RoutingTable.resolve, hnone]
  · intro gi g hg
    constructor
    · intro hall
      have hfilter :
          g.routes.enum.filter (fun r => is_available now r.2.status) = [] := by
        refine List.filter_eq_nil_iff.mpr fun x hx => ?_
        simp [hall x.2 (snd_mem_of_mem_enumFrom hx)]
      simp [RouterService.forward, RoutingTable.resolve, hg, hfilter, walkRoutes]
    · intro hex
      obtain ⟨r0, hr0mem, hr0av⟩ := hex
      obtain ⟨i0, hi0⟩ := exists_mem_enumFrom hr0mem 0
      have hi0f : (i0, r0) ∈ g.routes.enum.filter (fun r => is_available now r.2.status) :=
        List.mem_filter.mpr ⟨hi0, by simpa using hr0av⟩
      have hfne : g.routes.enum.filter (fun r => is_available now r.2.status) ≠ [] := by
        intro hnil
        rw [hnil] at hi0f
        exact absurd hi0f (by simp)
      obtain ⟨⟨ri, route⟩, hwalk⟩ :=
        walkRoutes_isSome
          (g.routes.enum.filter (fun r => is_available now r.2.status))
          (((g.routes.enum.filter (fun r => is_available now r.2.status)).map
              (fun r => r.2.config.partition)).sum)
          (if 1 < g.routes.length then hashPosition else 0)
          hfne
      have hmem := walkRoutes_mem _ _ _ _ hwalk
      have hmem' := List.mem_filter.mp hmem
      refine ⟨ri, route, ?_, snd_mem_of_mem_enumFrom hmem'.1, by simpa using hmem'.2⟩
      simp [RouterService.forward, RoutingTable.resolve, hg, hwalk]

/-- Witness for C2: on `demotedTable` (single group `test.`), a destination
outside every prefix rejects with "no route exists"; at `now = 5` the only
route is still unhealthy, rejecting with "no healthy route found"; at
`now = 6` the route is available again and resolution dispatches a route of
the matched group. -/
theorem router_forward_spec_witness :
    RouterService.forward sampleAddr demotedTable 5
        ⟨1, 100, List.replicate 32 0, asciiBytes "example.bob", []⟩ 0
      = .reject (makeRouterReject sampleAddr .F02_UNREACHABLE "no route exists")
    ∧ RouterService.forward sampleAddr demotedTable 5 demotedPrepare 0
        = .reject (makeRouterReject sampleAddr .T01_PEER_UNREACHABLE "no healthy route found")
    ∧ ∃ (ri : Nat) (route : DynamicRoute),
        RouterService.forward sampleAddr demotedTable 6 demotedPrepare 0
          = .dispatch 0 ri route
        ∧ route ∈ (⟨asciiBytes "test.", [demotedRoute]⟩ : RouteGroup).routes
        ∧ is_available 6 route.status = true :=
  ⟨(router_forward_spec sampleAddr demotedTable 5
      ⟨1, 100, List.replicate 32 0, asciiBytes "example.bob", []⟩ 0).1
      (by decide),
   ((router_forward_spec sampleAddr demotedTable 5 demotedPrepare 0).2 0
      ⟨asciiBytes "test.", [demotedRoute]⟩ (by decide)).1 (by decide),
   ((router_forward_spec sampleAddr demotedTable 6 demotedPrepare 0).2 0
      ⟨asciiBytes "test.", [demotedRoute]⟩ (by decide)).2 (by decide)⟩

/-! ## C1: longest-prefix group selection, independent of config order

The deserializer sorts target prefixes longest-first (`serde.rs`);
`RoutingTable::new` groups in first-occurrence order; `resolve_group` takes
the first matching group. Together these select the longest matching
prefix, whatever order the route map's keys are iterated in. -/

theorem insertRoute_map :
    ∀ (gs : List RouteGroup) (r : DynamicRoute),
      (insertRoute gs r).map RouteGroup.targetPrefix
        = if r.config.targetPrefix ∈ gs.map RouteGroup.targetPrefix
          then gs.map RouteGroup.targetPrefix
          else gs.map RouteGroup.targetPrefix ++ [r.config.targetPrefix] := by
  intro gs r
  induction gs with
  | nil => simp [insertRoute]
  | cons g rest ih =>
    simp only [insertRoute]
    by_cases h : g.targetPrefix = r.config.targetPrefix
    · rw [if_pos h]
      simp [h]
    · rw [if_neg h]
      simp only [List.map_cons, ih]
      by_cases hm : r.config.targetPrefix ∈ rest.map RouteGroup.targetPrefix
      · simp [hm, List.mem_cons, Ne.symm h]
      · simp [hm, List.mem_cons, Ne.symm h]

theorem find?_foldl_insertRoute (f : ByteStr → Bool) :
    ∀ (rs : List DynamicRoute) (gs : List RouteGroup),
      ((rs.foldl insertRoute gs).map RouteGroup.targetPrefix).find? f
        = ((gs.map RouteGroup.targetPrefix).find? f).or
            ((rs.map (fun r => r.config.targetPrefix)).find? f) := by
  intro rs
  induction rs with
  | nil => intro gs; simp
  | cons r rest ih =>
    intro gs
    rw [List.foldl_cons, ih (insertRoute gs r), insertRoute_map]
    by_cases hm : r.config.targetPrefix ∈ gs.map RouteGroup.targetPrefix
    · rw [if_pos hm, List.map_cons, List.find?_cons]
      cases hf : f r.config.targetPrefix with
      | false => rfl
      | true =>
        obtain ⟨v, hv⟩ := Option.isSome_iff_exists.mp
          (List.find?_isSome.mpr ⟨_, hm, hf⟩)
        rw [hv]
        rfl
    · rw [if_neg hm, List.find?_append, Option.or_assoc, List.map_cons, List.find?_cons]
      cases hf : f r.config.targetPrefix with
      | true => simp [List.find?, hf]
      | false => simp [List.find?, hf]

theorem resolveGroup_map_pref (t : RoutingTable) (dest : ByteStr) :
    (t.resolveGroup dest).map (fun x => x.2.targetPrefix)
      = (t.groups.map RouteGroup.targetPrefix).find? (fun p => p.isPrefixOf dest) := by
  unfold RoutingTable.resolveGroup
  generalize t.groups = gs
  suffices h : ∀ n,
      ((List.enumFrom n gs).find? (fun g => g.2.targetPrefix.isPrefixOf dest)).map
          (fun x => x.2.targetPrefix)
        = (gs.map RouteGroup.targetPrefix).find? (fun p => p.isPrefixOf dest) by
    exact h 0
  induction gs with
  | nil => intro n; rfl
  | cons g rest ih =>
    intro n
    rw [List.enumFrom, List.find?_cons, List.map_cons, List.find?_cons]
    cases h : g.targetPrefix.isPrefixOf dest with
    | true => simp [h]
    | false => simp [h, ih (n + 1)]

theorem find?_new_groups (now : Nat) (routes : List StaticRoute)
    (pb : RoutingPartition) (f : ByteStr → Bool) :
    (((RoutingTable.new now routes pb).groups.map RouteGroup.targetPrefix).find? f)
      = (routes.map StaticRoute.targetPrefix).find? f := by
  show (((routes.foldl (fun gs r => insertRoute gs (DynamicRoute.new now r)) []).map
      RouteGroup.targetPrefix).find? f) = _
  rw [← List.foldl_map (DynamicRoute.new now) insertRoute, find?_foldl_insertRoute,
    List.map_map]
  have hfun : ((fun r : DynamicRoute => r.config.targetPrefix) ∘ DynamicRoute.new now)
      = StaticRoute.targetPrefix := funext fun r => rfl
  rw [hfun]
  rfl

theorem find?_flatMap_replicate (f : ByteStr → Bool) :
    ∀ (l : List ByteStr) (k : ByteStr → Nat), (∀ p ∈ l, 1 ≤ k p) →
      (l.flatMap (fun p => List.replicate (k p) p)).find? f = l.find? f := by
  intro l
  induction l with
  | nil => intro _ _; rfl
  | cons p rest ih =>
    intro k hk
    rw [List.flatMap_cons, List.find?_append, List.find?_replicate, List.find?_cons]
    have hkp : ¬ (k p = 0) := by
      have := hk p (List.mem_cons_self ..)
      omega
    rw [if_neg hkp]
    cases hf : f p with
    | true => rfl
    | false => simp [ih k fun q hq => hk q (List.mem_cons_of_mem _ hq)]

theorem routingTableData_map_pref (cfg : List (ByteStr × List RouteData)) :
    (routingTableData cfg).map StaticRoute.targetPrefix
      = ((cfg.map Prod.fst).insertionSort prefOrd).flatMap
          (fun p => List.replicate ((cfg.lookup p).getD []).length p) := by
  unfold routingTableData
  rw [List.map_flatMap]
  congr 1
  funext p
  rw [List.map_map]
  exact List.map_const' ..

theorem lookup_block_pos :
    ∀ (cfg : List (ByteStr × List RouteData)), (∀ e ∈ cfg, e.2 ≠ []) →
      ∀ p ∈ cfg.map Prod.fst, 1 ≤ ((cfg.lookup p).getD []).length := by
  intro cfg
  induction cfg with
  | nil => intro _ p hp; simp at hp
  | cons e rest ih =>
    intro hvals p hp
    obtain ⟨k, v⟩ := e
    rw [List.map_cons] at hp
    by_cases hk : (p == k) = true
    · have hv : v ≠ [] := hvals (k, v) (List.mem_cons_self ..)
      simp only [List.lookup, hk, Option.getD_some]
      have := List.length_pos.mpr hv
      omega
    · have hp' : p ∈ rest.map Prod.fst := by
        rcases List.mem_cons.mp hp with h | h
        · exact absurd (by simp [h]) hk
        · exact h
      rw [Bool.not_eq_true] at hk
      simp only [List.lookup, hk]
      exact ih (fun e he => hvals e (List.mem_cons_of_mem _ he)) p hp'

theorem find?_longest (dest : ByteStr) :
    ∀ (ps : List ByteStr), ps.Pairwise prefOrd →
      ∀ q, ps.find? (fun p => p.isPrefixOf dest) = some q →
        q.isPrefixOf dest = true
        ∧ ∀ p ∈ ps, p.isPrefixOf dest = true → p.length ≤ q.length := by
  intro ps
  induction ps with
  | nil => intro _ q h; exact absurd h (by simp)
  | cons a rest ih =>
    intro hpw q hq
    have hpw' := List.pairwise_cons.mp hpw
    rw [List.find?_cons] at hq
    cases ha : a.isPrefixOf dest with
    | true =>
      simp only [ha] at hq
      injection hq with hq
      subst hq
      refine ⟨ha, ?_⟩
      intro p hp _
      rcases List.mem_cons.mp hp with h | h
      · exact h ▸ le_refl _
      · exact prefOrd_length_le (hpw'.1 p h)
    | false =>
      simp only [ha] at hq
      obtain ⟨h1, h2⟩ := ih hpw'.2 q hq
      refine ⟨h1, ?_⟩
      intro p hp hmatch
      rcases List.mem_cons.mp hp with h | h
      · subst h
        simp [ha] at hmatch
      · exact h2 p h hmatch

/-- Core of C1: for any route-map config (arbitrary key order, each prefix
holding at least one route), the resolved group's target prefix is the
prefix that matches the destination with maximal length among all
configured prefixes. -/
theorem resolveGroup_longest_core (cfg : List (ByteStr × List RouteData))
    (hvals : ∀ e ∈ cfg, e.2 ≠ []) (now : Nat) (pb : RoutingPartition)
    (dest : ByteStr) (p0 : ByteStr) (hp0 : p0 ∈ cfg.map Prod.fst)
    (hm : p0.isPrefixOf dest = true) :
    ∃ q, ((RoutingTable.new now (routingTableData cfg) pb).resolveGroup dest).map
          (fun x => x.2.targetPrefix) = some q
      ∧ q.isPrefixOf dest = true
      ∧ q ∈ cfg.map Prod.fst
      ∧ ∀ p ∈ cfg.map Prod.fst, p.isPrefixOf dest = true → p.length ≤ q.length := by
  have hchain :
      ((RoutingTable.new now (routingTableData cfg) pb).resolveGroup dest).map
          (fun x => x.2.targetPrefix)
        = ((cfg.map Prod.fst).insertionSort prefOrd).find?
            (fun p => p.isPrefixOf dest) := by
    rw [resolveGroup_map_pref, find?_new_groups, routingTableData_map_pref]
    exact find?_flatMap_replicate _ _ _ fun p hp =>
      lookup_block_pos cfg hvals p ((List.mem_insertionSort prefOrd).mp hp)
  have hex : ∃ x ∈ (cfg.map Prod.fst).insertionSort prefOrd,
      (fun p => p.isPrefixOf dest) x = true :=
    ⟨p0, (List.mem_insertionSort prefOrd).mpr hp0, hm⟩
  obtain ⟨q, hq⟩ := Option.isSome_iff_exists.mp (List.find?_isSome.mpr hex)
  have hlong := find?_longest dest _ (List.sorted_insertionSort prefOrd _) q hq
  refine ⟨q, by rw [hchain, hq], hlong.1, ?_, ?_⟩
  · exact (List.mem_insertionSort prefOrd).mp (List.mem_of_find?_eq_some hq)
  · intro p hp hpm
    exact hlong.2 p ((List.mem_insertionSort prefOrd).mpr hp) hpm

/-- C1: for every routing table built from a configured route map and every
Prepare whose destination some configured prefix matches, `resolve_group`
selects the group whose target prefix is the longest of all configured
prefixes that are prefixes of the destination — and the selected prefix is
the same for every permutation of the configuration. (Ties cannot arise:
two same-length prefixes of one destination are equal.) -/
theorem routing_longest_prefix_spec :
    ∀ (cfg : List (ByteStr × List RouteData)), (∀ e ∈ cfg, e.2 ≠ []) →
      ∀ (now : Nat) (pb : RoutingPartition) (prepare : Prepare) (p0 : ByteStr),
        p0 ∈ cfg.map Prod.fst → p0.isPrefixOf prepare.destination = true →
        ∃ (gi : Nat) (g : RouteGroup),
          (RoutingTable.new now (routingTableData cfg) pb).resolveGroup
              prepare.destination = some (gi, g)
          ∧ g.targetPrefix.isPrefixOf prepare.destination = true
          ∧ (∀ p ∈ cfg.map Prod.fst, p.isPrefixOf prepare.destination = true →
              p.length ≤ g.targetPrefix.length)
          ∧ (∀ (cfg' : List (ByteStr × List RouteData)),
              cfg'.Perm cfg → (∀ e ∈ cfg', e.2 ≠ []) →
              ∀ (now' : Nat) (pb' : RoutingPartition),
                ((RoutingTable.new now' (routingTableData cfg') pb').resolveGroup
                    prepare.destination).map (fun x => x.2.targetPrefix)
                  = some g.targetPrefix) := by
  intro cfg hvals now pb prepare p0 hp0 hm
  obtain ⟨q, hq, hqpref, hqmem, hqmax⟩ :=
    resolveGroup_longest_core cfg hvals now pb prepare.destination p0 hp0 hm
  obtain ⟨⟨gi, g⟩, hsome, hpref⟩ := Option.map_eq_some'.mp hq
  refine ⟨gi, g, hsome, hpref ▸ hqpref, fun p hp hpm => hpref ▸ hqmax p hp hpm, ?_⟩
  intro cfg' hperm hvals' now' pb'
  have hkeys : ∀ x : ByteStr, x ∈ cfg'.map Prod.fst ↔ x ∈ cfg.map Prod.fst :=
    fun x => (hperm.map Prod.fst).mem_iff
  obtain ⟨q', hq', hq'pref, hq'mem, hq'max⟩ :=
    resolveGroup_longest_core cfg' hvals' now' pb' prepare.destination p0
      ((hkeys p0).mpr hp0) hm
  have hlen : q'.length = q.length :=
    le_antisymm (hqmax q' ((hkeys q').mp hq'mem) hq'pref)
      (hq'max q ((hkeys q).mpr hqmem) hqpref)
  have hqq : q' = q := by
    have h1 := List.prefix_iff_eq_take.mp (List.isPrefixOf_iff_prefix.mp hq'pref)
    have h2 := List.prefix_iff_eq_take.mp (List.isPrefixOf_iff_prefix.mp hqpref)
    rw [h1, h2, hlen]
  rw [hq', hqq, hpref]

/-- A concrete route map for the C1 witness, listed shortest-prefix first to
exercise the sort. -/
def sampleCfg : List (ByteStr × List RouteData) :=
  [(asciiBytes "test.", [⟨.bilateral "http://r/fallback" none, "fallback", none, 1⟩]),
   (asciiBytes "test.one", [⟨.bilateral "http://r/one" none, "one", none, 1⟩])]

/-- Witness for C1: with prefixes `test.` and `test.one` configured in that
order, a Prepare to `test.one.alice` resolves to the longest matching
prefix. -/
theorem routing_longest_prefix_spec_witness :
    ∃ (gi : Nat) (g : RouteGroup),
      (RoutingTable.new 0 (routingTableData sampleCfg) .destination).resolveGroup
          (⟨1, 100, List.replicate 32 0, asciiBytes "test.one.alice", []⟩ : Prepare).destination
        = some (gi, g)
      ∧ g.targetPrefix.isPrefixOf (asciiBytes "test.one.alice") = true
      ∧ (∀ p ∈ sampleCfg.map Prod.fst, p.isPrefixOf (asciiBytes "test.one.alice") = true →
          p.length ≤ g.targetPrefix.length)
      ∧ (∀ (cfg' : List (ByteStr × List RouteData)),
          cfg'.Perm sampleCfg → (∀ e ∈ cfg', e.2 ≠ []) →
          ∀ (now' : Nat) (pb' : RoutingPartition),
            ((RoutingTable.new now' (routingTableData cfg') pb').resolveGroup
                (asciiBytes "test.one.alice")).map (fun x => x.2.targetPrefix)
              = some g.targetPrefix) :=
  routing_longest_prefix_spec sampleCfg (by decide) 0 .destination
    ⟨1, 100, List.replicate 32 0, asciiBytes "test.one.alice", []⟩
    (asciiBytes "test.one") (by decide) (by decide)
